import Mathlib

/-!
Verification of the TradeNow data acquisition and normalization pipeline.

This file gives a shallow embedding of the two core components:

* the stock-data cache and fetch coordinator implemented by the React hook
  in frontend/src/hooks/useStockData.ts (cache with TTL and bounded-size
  insertion-order eviction, abortable fetches, error normalization), and
* the pure chart-series normalizer in the candlestick chart component
  (timestamp parsing with UTC defaulting, drop of unparseable points,
  stable sorting, direction colors, default zoom window).

JavaScript numbers are modelled as rationals, epoch milliseconds as
integers.  The host function Date.parse is modelled as an arbitrary
parameter dateParse : String -> Option Int (none models a NaN result).
The asynchronous behaviour of the hook is modelled as a deterministic
step function over an explicit system state, driven by a list of actions
(effect runs, unmount, manual refetch, and resolutions of outstanding
fetches, which the environment may deliver in any order).
-/

set_option maxHeartbeats 1000000
set_option maxRecDepth 8000

namespace TradeNow

/-! ## Data model (frontend/src/types/stock.ts) -/

/-- One raw OHLCV sample as delivered by the API (OHLCVPointSchema). -/
structure OHLCVPoint where
  time : String
  open_ : ℚ
  high : ℚ
  low : ℚ
  close : ℚ
  volume : ℚ
deriving DecidableEq

/-- Response metadata (OHLCVMetadataSchema). -/
structure OHLCVMetadata where
  records : ℚ
  start_date : String
  end_date : String
deriving DecidableEq

/-- A full OHLCV response (OHLCVResponseSchema). -/
structure OHLCVResponse where
  ticker : String
  period : String
  data : List OHLCVPoint
  metadata : OHLCVMetadata
deriving DecidableEq

/-! ## Chart-series normalizer (CandlestickChart component) -/

/-- A parsed point: an OHLCVPoint whose time string parsed to epoch
milliseconds.  Corresponds to the intermediate points of the first loop of
normalizeChartData (a NormalizedChartPoint without its volumeColor). -/
structure ParsedPoint where
  isoTime : String
  timestampMs : Int
  open_ : ℚ
  high : ℚ
  low : ℚ
  close : ℚ
  volume : ℚ
deriving DecidableEq

/-- A fully normalized point, including the derived direction color. -/
structure NormalizedChartPoint where
  base : ParsedPoint
  volumeColor : String
deriving DecidableEq

structure VolumeItemStyle where
  color : String
deriving DecidableEq

/-- One entry of the volume bar series. -/
structure VolumeDatum where
  value : ℚ
  itemStyle : VolumeItemStyle
deriving DecidableEq

/-- Candle tuples are stored as [open, close, low, high]. -/
abbrev Candle := ℚ × ℚ × ℚ × ℚ

structure NormalizedChartData where
  points : List NormalizedChartPoint
  categories : List String
  candles : List Candle
  volumes : List VolumeDatum
  useIntradayAxisLabels : Bool
deriving DecidableEq

def UP_COLOR : String := "#22c55e"
def DOWN_COLOR : String := "#ef4444"
def VOLUME_WINDOW_SIZE : Nat := 150
def INTRADAY_THRESHOLD_MS : Int := 7 * 24 * 60 * 60 * 1000

def EMPTY_CHART_DATA : NormalizedChartData :=
  { points := [], categories := [], candles := [], volumes := [],
    useIntradayAxisLabels := false }

/-- The suffix test of the case-insensitive regex (Z|[+-]dd:dd)$ on the
last six characters of the string. -/
def matchesOffsetSuffix : List Char → Bool
  | [sign, d1, d2, c, d3, d4] =>
    (sign == '+' || sign == '-') && d1.isDigit && d2.isDigit &&
      (c == ':') && d3.isDigit && d4.isDigit
  | _ => false

/-- HAS_TIMEZONE_SUFFIX.test: the string ends in Z or z, or in a numeric
UTC offset of the form [+-]dd:dd. -/
def hasTimezoneSuffix (s : String) : Bool :=
  (match s.data.getLast? with
   | some ch => ch == 'Z' || ch == 'z'
   | none => false)
  || matchesOffsetSuffix (s.data.drop (s.data.length - 6))

/-- toEpochMs: append the UTC designator when no timezone suffix is
present, then parse; a NaN result (modelled as none) is propagated. -/
def toEpochMs (dateParse : String → Option Int) (isoTime : String) : Option Int :=
  dateParse (if hasTimezoneSuffix isoTime then isoTime else isoTime ++ "Z")

/-- Parsing one raw point: drop it when its time fails to parse. -/
def parsePoint (dateParse : String → Option Int) (p : OHLCVPoint) : Option ParsedPoint :=
  (toEpochMs dateParse p.time).map (fun ts =>
    { isoTime := p.time, timestampMs := ts, open_ := p.open_, high := p.high,
      low := p.low, close := p.close, volume := p.volume })

/-- The first loop of normalizeChartData: collect the points whose
timestamp parses, in input order. -/
def parsePoints (dateParse : String → Option Int) (l : List OHLCVPoint) : List ParsedPoint :=
  l.filterMap (parsePoint dateParse)

/-- isAlreadySorted, computed over the surviving (parsed) points exactly
as the first loop does: each parsed timestamp at least the previous one. -/
def tsSorted : List ParsedPoint → Bool
  | [] => true
  | [_] => true
  | a :: b :: rest => decide (a.timestampMs ≤ b.timestampMs) && tsSorted (b :: rest)

/-- Comparator of the sort call (left.timestampMs - right.timestampMs),
as the corresponding boolean order. -/
def tsLE (a b : ParsedPoint) : Bool := decide (a.timestampMs ≤ b.timestampMs)

/-- sortedPoints: keep input order when already sorted, otherwise a stable
sort ascending by timestamp (JavaScript sort is stable). -/
def sortPoints (l : List ParsedPoint) : List ParsedPoint :=
  if tsSorted l then l else l.mergeSort tsLE

/-- The second loop of normalizeChartData: one pass over the sorted points
threading previousClose, producing the four parallel output sequences. -/
def buildSeries : Option ℚ → List ParsedPoint →
    List NormalizedChartPoint × List String × List Candle × List VolumeDatum
  | _, [] => ([], [], [], [])
  | previousClose, p :: rest =>
    let referenceClose := previousClose.getD p.open_
    let volumeColor := if referenceClose ≤ p.close then UP_COLOR else DOWN_COLOR
    let tail := buildSeries (some p.close) rest
    (⟨p, volumeColor⟩ :: tail.1,
     p.isoTime :: tail.2.1,
     (p.open_, p.close, p.low, p.high) :: tail.2.2.1,
     ⟨p.volume, ⟨volumeColor⟩⟩ :: tail.2.2.2)

/-- normalizeChartData. -/
def normalizeChartData (dateParse : String → Option Int)
    (response : Option OHLCVResponse) : NormalizedChartData :=
  match response with
  | none => EMPTY_CHART_DATA
  | some r =>
    if r.data.length = 0 then EMPTY_CHART_DATA
    else
      let parsedPoints := parsePoints dateParse r.data
      let sortedPoints := sortPoints parsedPoints
      if sortedPoints.length = 0 then EMPTY_CHART_DATA
      else
        let built := buildSeries none sortedPoints
        let firstPointTime := ((built.1.head?).map (fun p => p.base.timestampMs)).getD 0
        let lastPointTime := ((built.1.getLast?).map (fun p => p.base.timestampMs)).getD 0
        { points := built.1, categories := built.2.1, candles := built.2.2.1,
          volumes := built.2.2.2,
          useIntradayAxisLabels :=
            decide (lastPointTime - firstPointTime ≤ INTRADAY_THRESHOLD_MS) }

/-- Math.round: round half toward positive infinity. -/
def jsRound (q : ℚ) : Int := ⌊q + 1/2⌋

/-- computeZoomStart: 0 when the series fits in the window, otherwise the
rounded percentage of the series preceding the trailing window. -/
def computeZoomStart (pointCount : Nat) : Int :=
  if pointCount ≤ VOLUME_WINDOW_SIZE then 0
  else max 0 (jsRound ((1 - (VOLUME_WINDOW_SIZE : ℚ) / pointCount) * 100))

/-- The dataZoom start percentage buildChartOption actually emits. -/
def dataZoomStart (chartData : NormalizedChartData) : Int :=
  if 0 < chartData.points.length then computeZoomStart chartData.points.length else 0

/-! ## Cache and fetch coordinator (frontend/src/hooks/useStockData.ts) -/

abbrev CacheKey := String

/-- A cache entry: a response plus its wall-clock insertion time. -/
structure CachedStockData where
  data : OHLCVResponse
  cachedAt : Int
deriving DecidableEq

/-- The shared in-memory cache, a JavaScript Map modelled as an
insertion-ordered association list (first entry = oldest insertion). -/
abbrev StockCache := List (CacheKey × CachedStockData)

def STOCK_DATA_CACHE_TTL_MS : Int := 5 * 60 * 1000
def STOCK_DATA_CACHE_MAX_ENTRIES : Nat := 120

/-- Map.prototype.has. -/
def mapHas (c : StockCache) (k : CacheKey) : Bool := c.any (fun e => e.1 == k)

/-- Map.prototype.get. -/
def mapGet (c : StockCache) (k : CacheKey) : Option CachedStockData :=
  (c.find? (fun e => e.1 == k)).map (fun e => e.2)

/-- Map.prototype.delete: remove the entry for the key, keeping the order
of the remaining entries. -/
def mapDelete (c : StockCache) (k : CacheKey) : StockCache :=
  c.eraseP (fun e => e.1 == k)

/-- Map.prototype.set: update in place when the key is present, append a
new entry otherwise. -/
def mapSet (c : StockCache) (k : CacheKey) (v : CachedStockData) : StockCache :=
  if mapHas c k then c.map (fun e => if e.1 == k then (k, v) else e)
  else c ++ [(k, v)]

def getCacheKey (ticker : String) (period : String) : CacheKey :=
  ticker ++ ":" ++ period

/-- isCacheFresh, at explicit current time now. -/
def isCacheFresh (now : Int) (entry : CachedStockData) : Bool :=
  decide (now - entry.cachedAt ≤ STOCK_DATA_CACHE_TTL_MS)

/-- setCachedStockData: re-insert existing keys at the end, then evict the
oldest entry when the capacity is exceeded.  The emptiness test on the
oldest key mirrors the JavaScript truthiness check on it. -/
def setCachedStockData (c : StockCache) (cacheKey : CacheKey)
    (d : OHLCVResponse) (now : Int) : StockCache :=
  let c1 := if mapHas c cacheKey then mapDelete c cacheKey else c
  let c2 := mapSet c1 cacheKey { data := d, cachedAt := now }
  if STOCK_DATA_CACHE_MAX_ENTRIES < c2.length then
    match c2.head? with
    | some e => if e.1 ≠ "" then mapDelete c2 e.1 else c2
    | none => c2
  else c2

/-- A thrown JavaScript value, as far as normalizeAPIError inspects it:
its name, whether it is a non-null object with a message property, that
message (the empty string standing for a falsy message value), and
optional status and details properties. -/
structure JsError where
  name : String
  hasMessageProp : Bool
  message : String
  status : Option Nat
  details : Option String
deriving DecidableEq

/-- The details field of a normalized error: either the details carried by
the thrown value, or (when those are nullish) the thrown value itself. -/
inductive APIErrorDetails where
  | fromField (payload : String)
  | fromError (e : JsError)
deriving DecidableEq

/-- The structured error surfaced to consumers (types/stock.ts APIError). -/
structure APIError where
  message : String
  status : Option Nat
  details : Option APIErrorDetails
deriving DecidableEq

def FETCH_FAILED_MESSAGE : String := "Failed to fetch stock data"

def MISSING_TICKER_ERROR : APIError :=
  { message := "Ticker symbol is required", status := none, details := none }

/-- normalizeAPIError. -/
def normalizeAPIError (err : JsError) : APIError :=
  if err.hasMessageProp then
    { message := if err.message = "" then FETCH_FAILED_MESSAGE else err.message,
      status := err.status,
      details := some (match err.details with
        | some d => APIErrorDetails.fromField d
        | none => APIErrorDetails.fromError err) }
  else
    { message := FETCH_FAILED_MESSAGE, status := none,
      details := some (APIErrorDetails.fromError err) }

/-- The hook state triple held in useState. -/
structure HookState where
  data : Option OHLCVResponse
  loading : Bool
  error : Option APIError
deriving DecidableEq

/-- One outstanding fetch: its controller id, the cache key it will write,
and whether it carries an abort signal (effect fetches do, fetches issued
by refetch do not). -/
structure Request where
  id : Nat
  key : CacheKey
  abortable : Bool
deriving DecidableEq

/-- The whole observable state of one hook instance together with the
shared cache and the set of outstanding fetches. -/
structure SysState where
  cache : StockCache
  hook : HookState
  inflight : List Request
  aborted : List Nat
  currentEffect : Option Nat
  nextId : Nat
deriving DecidableEq

def initialState : SysState :=
  { cache := [], hook := { data := none, loading := false, error := none },
    inflight := [], aborted := [], currentEffect := none, nextId := 0 }

inductive FetchOutcome where
  | success (resp : OHLCVResponse)
  | failure (err : JsError)
deriving DecidableEq

/-- The events that drive the hook: the effect running after a mount or a
ticker/period change (its cleanup aborting the previous effect's request
first), unmount (cleanup only), a manual refetch call, and the resolution
of an outstanding fetch, delivered by the network in any order. -/
inductive Action where
  | effectRun (ticker : String) (period : String) (now : Int)
  | unmount
  | refetch (ticker : String) (period : String)
  | resolve (id : Nat) (outcome : FetchOutcome) (now : Int)
deriving DecidableEq

/-- Effect cleanup: abort the current effect's controller, if any. -/
def abortCurrent (s : SysState) : SysState :=
  match s.currentEffect with
  | some i => { s with aborted := i :: s.aborted, currentEffect := none }
  | none => s

/-- String.prototype.trim: strip whitespace from both ends. -/
def jsTrim (s : String) : String :=
  ⟨((s.data.dropWhile Char.isWhitespace).reverse.dropWhile Char.isWhitespace).reverse⟩

/-- String.prototype.toUpperCase (ASCII fragment, enough for tickers). -/
def jsToUpper (s : String) : String := ⟨s.data.map Char.toUpper⟩

/-- ticker.trim().toUpperCase(). -/
def normalizeTicker (t : String) : String := jsToUpper (jsTrim t)

/-- One transition of the system. -/
def step (s : SysState) : Action → SysState
  | .effectRun ticker period now =>
    let s := abortCurrent s
    let normalizedTicker := normalizeTicker ticker
    if normalizedTicker = "" then s
    else
      let cacheKey := getCacheKey normalizedTicker period
      match mapGet s.cache cacheKey with
      | some cachedEntry =>
        if isCacheFresh now cachedEntry then
          { s with hook :=
              { data := some cachedEntry.data, loading := false, error := none } }
        else
          { s with
            hook := { data := some cachedEntry.data, loading := true, error := none },
            inflight := s.inflight ++ [{ id := s.nextId, key := cacheKey, abortable := true }],
            currentEffect := some s.nextId,
            nextId := s.nextId + 1 }
      | none =>
        { s with
          hook := { data := s.hook.data, loading := true, error := none },
          inflight := s.inflight ++ [{ id := s.nextId, key := cacheKey, abortable := true }],
          currentEffect := some s.nextId,
          nextId := s.nextId + 1 }
  | .unmount => abortCurrent s
  | .refetch ticker period =>
    let normalizedTicker := normalizeTicker ticker
    if normalizedTicker = "" then
      { s with hook :=
          { s.hook with loading := false, error := some MISSING_TICKER_ERROR } }
    else
      { s with
        hook := { s.hook with loading := true, error := none },
        inflight := s.inflight ++
          [{ id := s.nextId, key := getCacheKey normalizedTicker period, abortable := false }],
        nextId := s.nextId + 1 }
  | .resolve id outcome now =>
    match s.inflight.find? (fun r => r.id == id) with
    | none => s
    | some r =>
      let s := { s with inflight := s.inflight.eraseP (fun q => q.id == id) }
      match outcome with
      | .success resp =>
        if r.abortable && s.aborted.contains id then s
        else
          { s with
            cache := setCachedStockData s.cache r.key resp now,
            hook := { data := some resp, loading := false, error := none } }
      | .failure err =>
        if err.name == "AbortError" then s
        else if r.abortable && s.aborted.contains id then s
        else
          { s with hook :=
              { s.hook with loading := false, error := some (normalizeAPIError err) } }

/-- Run a sequence of actions from a state. -/
def run (s : SysState) (as : List Action) : SysState := as.foldl step s

/-! ## Concrete material for witnesses and counterexamples -/

/-- The list of raw points of a response, empty for a null response. -/
def responseData : Option OHLCVResponse → List OHLCVPoint
  | none => []
  | some r => r.data

/-- A finite table standing for the host Date.parse. -/
def tableParse (table : List (String × Int)) : String → Option Int :=
  fun s => (table.find? (fun e => e.1 == s)).map (fun e => e.2)

def sampleMetadata : OHLCVMetadata :=
  { records := 0, start_date := "", end_date := "" }

def sampleResponse : OHLCVResponse :=
  { ticker := "AAPL", period := "1mo", data := [], metadata := sampleMetadata }

/-- n distinct, nonempty cache keys. -/
def distinctKeys (n : Nat) : List CacheKey :=
  (List.range n).map (fun i => "T" ++ toString i ++ ":1mo")

/-- Insert a response under each key in turn, starting from an empty cache. -/
def insertKeys (ks : List CacheKey) (d : OHLCVResponse) (now : Int) : StockCache :=
  ks.foldl (fun c k => setCachedStockData c k d now) []

/-- An effect-issued fetch immediately followed by a manual refetch for
the same key, with the first fetch still unresolved. -/
def overlapTrace : List Action :=
  [Action.effectRun "AAPL" "1mo" 0, Action.refetch "AAPL" "1mo"]

/-- Two requests for the same key within the TTL window, the first
resolving successfully in between; the second arrives exactly at the TTL
boundary of the cached entry. -/
def freshnessTrace : List Action :=
  [Action.effectRun "AAPL" "1mo" 0,
   Action.resolve 0 (FetchOutcome.success sampleResponse) 5,
   Action.effectRun "AAPL" "1mo" (5 + STOCK_DATA_CACHE_TTL_MS)]

/-- A state with one aborted in-flight effect request. -/
def stateAborted : SysState :=
  { cache := [], hook := { data := none, loading := true, error := none },
    inflight := [{ id := 0, key := "AAPL:1mo", abortable := true }],
    aborted := [0], currentEffect := none, nextId := 1 }

/-- A state with a live (un-aborted) in-flight effect request. -/
def stateLive : SysState :=
  { cache := [("AAPL:1mo", { data := sampleResponse, cachedAt := 0 })],
    hook := { data := some sampleResponse, loading := true, error := none },
    inflight := [{ id := 0, key := "AAPL:1mo", abortable := true }],
    aborted := [], currentEffect := some 0, nextId := 1 }

/-- A concrete transport failure. -/
def transportError : JsError :=
  { name := "TransportError", hasMessageProp := true, message := "boom",
    status := some 500, details := none }

/-- A parse table with a duplicate timestamp, out of order. -/
def dpDup : String → Option Int := tableParse [("a5Z", 5), ("b9Z", 9), ("c5Z", 5)]

/-- Three raw points: timestamps 5, 9, 5 (unsorted, one duplicate). -/
def rawDup : List OHLCVPoint :=
  [⟨"a5Z", 1, 1, 1, 1, 1⟩, ⟨"b9Z", 2, 2, 2, 2, 2⟩, ⟨"c5Z", 3, 3, 3, 3, 3⟩]

def respDup : OHLCVResponse :=
  { ticker := "X", period := "1d", data := rawDup, metadata := sampleMetadata }

/-- A parse table for single-point witnesses. -/
def dpOne : String → Option Int := tableParse [("t0Z", 0)]

/-- A single raw point with open 100 and close 95. -/
def respDown : OHLCVResponse :=
  { ticker := "X", period := "1d", data := [⟨"t0Z", 100, 101, 94, 95, 10⟩],
    metadata := sampleMetadata }

/-- A single raw point with open 100 and close 105. -/
def respUp : OHLCVResponse :=
  { ticker := "X", period := "1d", data := [⟨"t0Z", 100, 106, 99, 105, 10⟩],
    metadata := sampleMetadata }

/-- Two raw points, the second with an unparseable timestamp. -/
def respBadTime : OHLCVResponse :=
  { ticker := "X", period := "1d", data := [⟨"t0Z", 1, 1, 1, 1, 1⟩, ⟨"junk", 2, 2, 2, 2, 2⟩],
    metadata := sampleMetadata }

/-! ## Helper lemmas: cache -/

theorem mapSet_length_le (c : StockCache) (k : CacheKey) (v : CachedStockData) :
    (mapSet c k v).length ≤ c.length + 1 := by
  unfold mapSet
  split
  · simp
  · simp

theorem mapDelete_length_of_has (c : StockCache) (k : CacheKey) (h : mapHas c k = true) :
    (mapDelete c k).length = c.length - 1 := by
  unfold mapDelete
  rw [List.length_eraseP]
  unfold mapHas at h
  simp [h]

/-! ## C5: cache capacity and insertion-order eviction -/

/-- C5.  The cache never exceeds STOCK_DATA_CACHE_MAX_ENTRIES (120)
entries: an insertion into a cache of at most 120 entries leaves at most
120 entries, and an insertion of a fresh key into a full cache evicts
exactly the least-recently-inserted (first) entry, appending the new
entry at the end.  Concretely, inserting 121 distinct keys into an empty
cache leaves 120 entries and the first-inserted key is no longer
servable. -/
theorem cache_capacity_eviction (c : StockCache) (k : CacheKey) (d : OHLCVResponse)
    (now : Int) (hkeys : ∀ e ∈ c, e.1 ≠ "") :
    (c.length ≤ STOCK_DATA_CACHE_MAX_ENTRIES →
      (setCachedStockData c k d now).length ≤ STOCK_DATA_CACHE_MAX_ENTRIES) ∧
    (c.length = STOCK_DATA_CACHE_MAX_ENTRIES → mapHas c k = false →
      setCachedStockData c k d now = c.tail ++ [(k, { data := d, cachedAt := now })]) ∧
    mapGet (insertKeys (distinctKeys 121) sampleResponse 0) (getCacheKey "T0" "1mo") = none ∧
    (insertKeys (distinctKeys 121) sampleResponse 0).length = STOCK_DATA_CACHE_MAX_ENTRIES := by
  refine ⟨?_, ?_, ?_, ?_⟩
  · intro hle
    by_cases h1 : mapHas c k
    · -- re-insertion of an existing key never grows the cache
      have hdel : (mapDelete c k).length = c.length - 1 := mapDelete_length_of_has c k h1
      have hset := mapSet_length_le (mapDelete c k) k
        ({ data := d, cachedAt := now } : CachedStockData)
      have hpos : 1 ≤ c.length := by
        by_contra hc
        have hnil : c = [] := by
          cases c with
          | nil => rfl
          | cons a t => simp at hc
        rw [hnil] at h1
        simp [mapHas] at h1
      have hlen2 : (mapSet (mapDelete c k) k
          ({ data := d, cachedAt := now } : CachedStockData)).length ≤
          STOCK_DATA_CACHE_MAX_ENTRIES := by omega
      simp only [setCachedStockData, h1, if_true]
      split
      · next hgt => exact absurd hgt (by omega)
      · exact hlen2
    · -- fresh key: append, then evict the head when over capacity
      have h1f : mapHas c k = false := by simpa using h1
      simp only [setCachedStockData, h1f, Bool.false_eq_true, if_false, mapSet]
      split
      · next hgt =>
        cases c with
        | nil => simp [STOCK_DATA_CACHE_MAX_ENTRIES] at hgt
        | cons e rest =>
          simp only [List.cons_append, List.head?_cons]
          have he : e.1 ≠ "" := hkeys e (List.mem_cons_self e rest)
          rw [if_pos he]
          have herase : mapDelete
              (e :: (rest ++ [(k, ({ data := d, cachedAt := now } : CachedStockData))])) e.1 =
              rest ++ [(k, ({ data := d, cachedAt := now } : CachedStockData))] := by
            unfold mapDelete
            exact List.eraseP_cons_of_pos (by simp)
          rw [herase]
          simp only [List.length_append, List.length_cons, List.length_nil] at hle ⊢
          omega
      · next hgt =>
        simp only [List.length_append, List.length_cons, List.length_nil] at hgt ⊢
        omega
  · intro hfull h1
    simp only [setCachedStockData, h1, Bool.false_eq_true, if_false, mapSet]
    cases c with
    | nil => simp [STOCK_DATA_CACHE_MAX_ENTRIES] at hfull
    | cons e rest =>
      have he : e.1 ≠ "" := hkeys e (List.mem_cons_self e rest)
      have hlen : STOCK_DATA_CACHE_MAX_ENTRIES <
          ((e :: rest) ++ [(k, ({ data := d, cachedAt := now } : CachedStockData))]).length := by
        simp only [List.length_append, List.length_cons, List.length_nil]
        simp only [List.length_cons] at hfull
        omega
      rw [if_pos hlen]
      simp only [List.cons_append, List.head?_cons]
      rw [if_pos he]
      unfold mapDelete
      rw [List.eraseP_cons_of_pos (by simp)]
      rfl
  · decide
  · decide

/-- Witness for C5 at a concrete input: a one-entry cache holding a
nonempty key, a fresh nonempty key. -/
theorem cache_capacity_eviction_witness :
    (∀ e ∈ ([("A:1mo", { data := sampleResponse, cachedAt := 0 })] : StockCache),
      e.1 ≠ "") ∧
    (([("A:1mo", { data := sampleResponse, cachedAt := 0 })] : StockCache).length ≤
        STOCK_DATA_CACHE_MAX_ENTRIES →
      (setCachedStockData [("A:1mo", { data := sampleResponse, cachedAt := 0 })]
          "B:1mo" sampleResponse 7).length ≤ STOCK_DATA_CACHE_MAX_ENTRIES) := by
  refine ⟨by decide, ?_⟩
  exact (cache_capacity_eviction
    [("A:1mo", { data := sampleResponse, cachedAt := 0 })] "B:1mo" sampleResponse 7
    (by decide)).1

/-! ## Helper lemmas: coordinator state -/

@[simp] theorem abortCurrent_cache (s : SysState) : (abortCurrent s).cache = s.cache := by
  unfold abortCurrent
  split <;> rfl

@[simp] theorem abortCurrent_hook (s : SysState) : (abortCurrent s).hook = s.hook := by
  unfold abortCurrent
  split <;> rfl

@[simp] theorem abortCurrent_inflight (s : SysState) :
    (abortCurrent s).inflight = s.inflight := by
  unfold abortCurrent
  split <;> rfl

@[simp] theorem abortCurrent_nextId (s : SysState) : (abortCurrent s).nextId = s.nextId := by
  unfold abortCurrent
  split <;> rfl

theorem normalizeAPIError_message_ne (err : JsError) :
    (normalizeAPIError err).message ≠ "" := by
  unfold normalizeAPIError
  split
  · split
    · next h => simp [FETCH_FAILED_MESSAGE]
    · next h => simpa using h
  · simp [FETCH_FAILED_MESSAGE]

/-! ## C1: canceled requests never mutate shared state -/

/-- C1.  A resolution of a canceled (aborted) request — success or
non-abort failure alike — leaves both the cache and the hook-visible
state (data, loading, error) unchanged; and an abort rejection is
swallowed regardless, never surfacing an error.  Canceled requests are
the effect-issued (abortable) ones, as the hypothesis on the in-flight
table records. -/
theorem canceled_resolution_never_applied (s : SysState) (id : Nat) (now : Int) :
    (id ∈ s.aborted →
      (∀ r ∈ s.inflight, r.id = id → r.abortable = true) →
      ∀ outcome, (step s (Action.resolve id outcome now)).cache = s.cache ∧
        (step s (Action.resolve id outcome now)).hook = s.hook) ∧
    (∀ err : JsError, err.name = "AbortError" →
      (step s (Action.resolve id (FetchOutcome.failure err) now)).cache = s.cache ∧
      (step s (Action.resolve id (FetchOutcome.failure err) now)).hook = s.hook) := by
  constructor
  · intro hmem habortable outcome
    cases hfind : s.inflight.find? (fun r => r.id == id) with
    | none => simp [step, hfind]
    | some r =>
      have hrid : r.id = id := by
        have := List.find?_some hfind
        simpa using this
      have hab : r.abortable = true :=
        habortable r (List.mem_of_find?_eq_some hfind) hrid
      cases outcome with
      | success resp => simp [step, hfind, hab, hmem]
      | failure err =>
        by_cases hname : err.name == "AbortError"
        · simp [step, hfind, hname]
        · simp [step, hfind, hname, hab, hmem]
  · intro err hname
    cases hfind : s.inflight.find? (fun r => r.id == id) with
    | none => simp [step, hfind]
    | some r => simp [step, hfind, hname]

/-- Witness for C1: a state with one aborted in-flight effect request,
resolved successfully; nothing changes. -/
theorem canceled_resolution_never_applied_witness :
    (0 : Nat) ∈ stateAborted.aborted ∧
    (∀ r ∈ stateAborted.inflight, r.id = 0 → r.abortable = true) ∧
    ((step stateAborted (Action.resolve 0 (FetchOutcome.success sampleResponse) 9)).cache =
        stateAborted.cache ∧
      (step stateAborted (Action.resolve 0 (FetchOutcome.success sampleResponse) 9)).hook =
        stateAborted.hook) := by
  refine ⟨by decide, by decide, ?_⟩
  exact (canceled_resolution_never_applied stateAborted 0 9).1
    (by decide) (by decide) (FetchOutcome.success sampleResponse)

/-! ## C2: singleflight per key -/

/-- C2 counterexample.  The claim says that before any fetch is issued —
including one issued by refetch — any in-flight request for the same key
is canceled first, so two fetches for one key never overlap.  But after
an effect-issued fetch for AAPL:1mo followed immediately by a manual
refetch for the same key, two un-aborted requests for that key are in
flight simultaneously. -/
theorem refetch_overlap_counterexample :
    ((run initialState overlapTrace).inflight.filter
      (fun r => r.key == "AAPL:1mo" &&
        !((run initialState overlapTrace).aborted.contains r.id))).length = 2 := by
  decide

/-- C2 amended.  Effect-issued fetches do respect cancellation: whenever
the effect re-runs (ticker/period change) or the hook unmounts, the
previous effect's in-flight request is aborted before anything else
happens.  The manually-triggered refetch, however, bypasses the cache
freshness check and issues its fetch without canceling any in-flight
request (its request carries no abort signal), so a refetch-issued fetch
can overlap an effect-issued fetch for the same key. -/
theorem effect_fetch_cancels_previous (s : SysState) (i : Nat)
    (h : s.currentEffect = some i) :
    (∀ t p : String, ∀ now : Int, i ∈ (step s (Action.effectRun t p now)).aborted) ∧
    i ∈ (step s Action.unmount).aborted ∧
    (∀ t p : String, (step s (Action.refetch t p)).aborted = s.aborted ∧
      (step s (Action.refetch t p)).currentEffect = s.currentEffect) := by
  have hab : (abortCurrent s).aborted = i :: s.aborted := by
    unfold abortCurrent
    rw [h]
  refine ⟨?_, ?_, ?_⟩
  · intro t p now
    have hstep : (step s (Action.effectRun t p now)).aborted = (abortCurrent s).aborted := by
      simp only [step]
      split
      · rfl
      · split
        · split <;> rfl
        · rfl
    rw [hstep, hab]
    exact List.mem_cons_self i s.aborted
  · have hstep : step s Action.unmount = abortCurrent s := rfl
    rw [hstep, hab]
    exact List.mem_cons_self i s.aborted
  · intro t p
    constructor
    · simp only [step]
      split <;> rfl
    · simp only [step]
      split <;> rfl

/-- Witness for C2 (amended) at a concrete state with a current effect
request: the effect re-run aborts it. -/
theorem effect_fetch_cancels_previous_witness :
    stateLive.currentEffect = some 0 ∧
    0 ∈ (step stateLive (Action.effectRun "MSFT" "1mo" 3)).aborted := by
  refine ⟨rfl, ?_⟩
  exact (effect_fetch_cancels_previous stateLive 0 rfl).1 "MSFT" "1mo" 3

/-! ## C3: cache freshness and stale-while-revalidate -/

/-- C3.  When an effect runs for a key whose cache entry is at most
STOCK_DATA_CACHE_TTL_MS (300000 ms) old, the entry is served with no
network call (no new request id, in-flight table unchanged); when the
entry is older than the TTL, a new fetch is issued while the stale value
is shown synchronously with the loading flag raised.  Consequently, in
the concrete two-request scenario within the TTL window the system
issues exactly one network call in total and ends up showing the cached
response. -/
theorem cache_freshness_behavior (s : SysState) (t p : String) (now : Int)
    (e : CachedStockData) (ht : normalizeTicker t ≠ "")
    (hget : mapGet s.cache (getCacheKey (normalizeTicker t) p) = some e) :
    (now - e.cachedAt ≤ STOCK_DATA_CACHE_TTL_MS →
      (step s (Action.effectRun t p now)).nextId = s.nextId ∧
      (step s (Action.effectRun t p now)).inflight = s.inflight ∧
      (step s (Action.effectRun t p now)).hook =
        { data := some e.data, loading := false, error := none }) ∧
    (STOCK_DATA_CACHE_TTL_MS < now - e.cachedAt →
      (step s (Action.effectRun t p now)).nextId = s.nextId + 1 ∧
      (step s (Action.effectRun t p now)).inflight = s.inflight ++
        [{ id := s.nextId, key := getCacheKey (normalizeTicker t) p, abortable := true }] ∧
      (step s (Action.effectRun t p now)).hook =
        { data := some e.data, loading := true, error := none }) ∧
    (run initialState freshnessTrace).nextId = 1 ∧
    (run initialState freshnessTrace).hook =
      { data := some sampleResponse, loading := false, error := none } := by
  refine ⟨?_, ?_, by decide, by decide⟩
  · intro hfresh
    have hf : isCacheFresh now e = true := by
      simp [isCacheFresh, hfresh]
    refine ⟨?_, ?_, ?_⟩ <;> simp [step, ht, hget, hf]
  · intro hstale
    have hf : isCacheFresh now e = false := by
      simp [isCacheFresh]
      omega
    refine ⟨?_, ?_, ?_⟩ <;> simp [step, ht, hget, hf]

/-- Witness for C3: the concrete state holding a cache entry stored at
time 0 for AAPL:1mo, requested again at time 3 (within the TTL): no new
request is issued. -/
theorem cache_freshness_behavior_witness :
    normalizeTicker "AAPL" ≠ "" ∧
    mapGet stateLive.cache (getCacheKey (normalizeTicker "AAPL") "1mo") =
      some { data := sampleResponse, cachedAt := 0 } ∧
    ((3 : Int) - (0 : Int) ≤ STOCK_DATA_CACHE_TTL_MS →
      (step stateLive (Action.effectRun "AAPL" "1mo" 3)).nextId = stateLive.nextId ∧
      (step stateLive (Action.effectRun "AAPL" "1mo" 3)).inflight = stateLive.inflight ∧
      (step stateLive (Action.effectRun "AAPL" "1mo" 3)).hook =
        { data := some sampleResponse, loading := false, error := none }) := by
  refine ⟨by decide, by decide, ?_⟩
  exact (cache_freshness_behavior stateLive "AAPL" "1mo" 3
    { data := sampleResponse, cachedAt := 0 } (by decide) (by decide)).1

/-! ## C4: non-abort failures are reported structurally, cache untouched -/

/-- C4.  When a fetch fails for any reason other than cancellation and
its request was not aborted, the cache is left untouched and the
previously displayed data is kept, while the failure is surfaced as the
structured error produced by normalizeAPIError (whose message is never
empty), with loading lowered.  -/
theorem fetch_failure_structured_error (s : SysState) (id : Nat) (err : JsError)
    (now : Int) (hname : err.name ≠ "AbortError")
    (hab : s.aborted.contains id = false) :
    (step s (Action.resolve id (FetchOutcome.failure err) now)).cache = s.cache ∧
    (step s (Action.resolve id (FetchOutcome.failure err) now)).hook.data = s.hook.data ∧
    ((s.inflight.find? (fun r => r.id == id)).isSome →
      (step s (Action.resolve id (FetchOutcome.failure err) now)).hook.error =
        some (normalizeAPIError err) ∧
      (step s (Action.resolve id (FetchOutcome.failure err) now)).hook.loading = false) ∧
    (normalizeAPIError err).message ≠ "" := by
  have hnameb : (err.name == "AbortError") = false := by
    simpa using hname
  have hnm : id ∉ s.aborted := by
    simpa using hab
  cases hfind : s.inflight.find? (fun r => r.id == id) with
  | none =>
    refine ⟨?_, ?_, ?_, normalizeAPIError_message_ne err⟩ <;>
      simp [step, hfind]
  | some r =>
    refine ⟨?_, ?_, ?_, normalizeAPIError_message_ne err⟩ <;>
      simp [step, hfind, hnameb, hnm]

/-- Witness for C4: a concrete transport error resolving a live request;
the cache entry survives and the structured error is reported. -/
theorem fetch_failure_structured_error_witness :
    transportError.name ≠ "AbortError" ∧
    stateLive.aborted.contains 0 = false ∧
    (step stateLive (Action.resolve 0 (FetchOutcome.failure transportError) 9)).cache =
      stateLive.cache := by
  refine ⟨by decide, by decide, ?_⟩
  exact (fetch_failure_structured_error stateLive 0 transportError 9
    (by decide) (by decide)).1

/-! ## Helper lemmas: normalizer -/

theorem buildSeries_fst_map_base (prev : Option ℚ) (l : List ParsedPoint) :
    (buildSeries prev l).1.map (fun q => q.base) = l := by
  induction l generalizing prev with
  | nil => rfl
  | cons p rest ih => simp [buildSeries, ih]

theorem buildSeries_fst_length (prev : Option ℚ) (l : List ParsedPoint) :
    (buildSeries prev l).1.length = l.length := by
  have h := congrArg List.length (buildSeries_fst_map_base prev l)
  simpa using h

theorem buildSeries_categories (prev : Option ℚ) (l : List ParsedPoint) :
    (buildSeries prev l).2.1 = (buildSeries prev l).1.map (fun q => q.base.isoTime) := by
  induction l generalizing prev with
  | nil => rfl
  | cons p rest ih => simp [buildSeries, ih]

theorem buildSeries_candles (prev : Option ℚ) (l : List ParsedPoint) :
    (buildSeries prev l).2.2.1 = (buildSeries prev l).1.map
      (fun q => ((q.base.open_, q.base.close, q.base.low, q.base.high) : Candle)) := by
  induction l generalizing prev with
  | nil => rfl
  | cons p rest ih => simp [buildSeries, ih]

theorem buildSeries_volumes (prev : Option ℚ) (l : List ParsedPoint) :
    (buildSeries prev l).2.2.2 = (buildSeries prev l).1.map
      (fun q => (⟨q.base.volume, ⟨q.volumeColor⟩⟩ : VolumeDatum)) := by
  induction l generalizing prev with
  | nil => rfl
  | cons p rest ih => simp [buildSeries, ih]

theorem sortPoints_length (l : List ParsedPoint) : (sortPoints l).length = l.length := by
  unfold sortPoints
  split
  · rfl
  · simp

theorem tsSorted_pairwise (l : List ParsedPoint) (h : tsSorted l = true) :
    l.Pairwise (fun a b => a.timestampMs ≤ b.timestampMs) := by
  induction l with
  | nil => exact List.Pairwise.nil
  | cons a rest ih =>
    cases rest with
    | nil => simp
    | cons b rest2 =>
      simp only [tsSorted, Bool.and_eq_true, decide_eq_true_eq] at h
      have hp := ih h.2
      constructor
      · intro x hx
        cases hx with
        | head => exact h.1
        | tail _ hx2 =>
          exact le_trans h.1 (List.rel_of_pairwise_cons hp hx2)
      · exact hp

theorem tsLE_trans : ∀ a b c : ParsedPoint, tsLE a b → tsLE b c → tsLE a c := by
  intro a b c hab hbc
  simp only [tsLE, decide_eq_true_eq] at *
  omega

theorem tsLE_total : ∀ a b : ParsedPoint, tsLE a b || tsLE b a := by
  intro a b
  simp only [tsLE, Bool.or_eq_true, decide_eq_true_eq]
  omega

theorem sortPoints_pairwise (l : List ParsedPoint) :
    (sortPoints l).Pairwise (fun a b => a.timestampMs ≤ b.timestampMs) := by
  unfold sortPoints
  split
  · next h => exact tsSorted_pairwise l h
  · have hp := List.sorted_mergeSort tsLE_trans tsLE_total l
    exact hp.imp (by intro a b hab; simpa [tsLE] using hab)

theorem mergeSort_filter_ts (l : List ParsedPoint) (t : Int) :
    (l.mergeSort tsLE).filter (fun q => q.timestampMs == t) =
      l.filter (fun q => q.timestampMs == t) := by
  have hA : (l.filter (fun q => q.timestampMs == t)).Pairwise (fun a b => tsLE a b) := by
    apply List.pairwise_of_forall_mem_list
    intro a ha b hb
    have ha2 := (List.mem_filter.mp ha).2
    have hb2 := (List.mem_filter.mp hb).2
    simp only [beq_iff_eq] at ha2 hb2
    simp only [tsLE, ha2, hb2, decide_eq_true_eq, le_refl]
  have hsub : List.Sublist (l.filter (fun q => q.timestampMs == t)) (l.mergeSort tsLE) :=
    List.sublist_mergeSort tsLE_trans tsLE_total hA (List.filter_sublist l)
  have hall : ∀ a ∈ l.filter (fun q => q.timestampMs == t),
      (fun q => q.timestampMs == t) a = true := fun a ha => (List.mem_filter.mp ha).2
  have hsub2 : List.Sublist (l.filter (fun q => q.timestampMs == t))
      ((l.mergeSort tsLE).filter (fun q => q.timestampMs == t)) := by
    have h1 := hsub.filter (fun q => q.timestampMs == t)
    rwa [List.filter_eq_self.mpr hall] at h1
  have hperm : List.Perm ((l.mergeSort tsLE).filter (fun q => q.timestampMs == t))
      (l.filter (fun q => q.timestampMs == t)) := (List.mergeSort_perm l tsLE).filter _
  exact (hsub2.eq_of_length hperm.length_eq.symm).symm

theorem sortPoints_filter (l : List ParsedPoint) (t : Int) :
    (sortPoints l).filter (fun q => q.timestampMs == t) =
      l.filter (fun q => q.timestampMs == t) := by
  unfold sortPoints
  split
  · rfl
  · exact mergeSort_filter_ts l t

theorem normalize_components (dateParse : String → Option Int) (r : OHLCVResponse) :
    (normalizeChartData dateParse (some r)).points =
      (buildSeries none (sortPoints (parsePoints dateParse r.data))).1 ∧
    (normalizeChartData dateParse (some r)).categories =
      (buildSeries none (sortPoints (parsePoints dateParse r.data))).2.1 ∧
    (normalizeChartData dateParse (some r)).candles =
      (buildSeries none (sortPoints (parsePoints dateParse r.data))).2.2.1 ∧
    (normalizeChartData dateParse (some r)).volumes =
      (buildSeries none (sortPoints (parsePoints dateParse r.data))).2.2.2 := by
  simp only [normalizeChartData]
  split
  · next h =>
    have hd : r.data = [] := List.length_eq_zero.mp h
    refine ⟨?_, ?_, ?_, ?_⟩ <;>
      simp [EMPTY_CHART_DATA, hd, parsePoints, sortPoints, tsSorted, buildSeries]
  · split
    · next h2 =>
      have h3 : sortPoints (parsePoints dateParse r.data) = [] :=
        List.length_eq_zero.mp h2
      refine ⟨?_, ?_, ?_, ?_⟩ <;> simp [EMPTY_CHART_DATA, h3, buildSeries]
    · exact ⟨rfl, rfl, rfl, rfl⟩

theorem length_filterMap_sub {α β : Type} (f : α → Option β) (l : List α) :
    (l.filterMap f).length = l.length - l.countP (fun a => (f a).isNone) := by
  induction l with
  | nil => rfl
  | cons a rest ih =>
    have hc : rest.countP (fun a => (f a).isNone) ≤ rest.length :=
      List.countP_le_length _
    cases hf : f a with
    | none =>
      simp [List.filterMap_cons, hf, List.countP_cons, ih]
    | some b =>
      simp [List.filterMap_cons, hf, List.countP_cons, ih]
      omega

/-! ## C6: order of the normalized series -/

/-- C6.  The normalizer's output is non-decreasing by parsed timestamp
and keeps every parsed point (duplicate timestamps included, lengths
equal); when the input, after dropping unparseable points, is already
non-decreasing, the input order is preserved exactly; and in every case
points sharing a timestamp keep their original relative order (the
points carrying any fixed timestamp come out exactly as they went in). -/
theorem normalize_sort_stability (dateParse : String → Option Int) (r : OHLCVResponse) :
    ((normalizeChartData dateParse (some r)).points).Pairwise
      (fun a b => a.base.timestampMs ≤ b.base.timestampMs) ∧
    (normalizeChartData dateParse (some r)).points.length =
      (parsePoints dateParse r.data).length ∧
    (tsSorted (parsePoints dateParse r.data) = true →
      (normalizeChartData dateParse (some r)).points.map (fun q => q.base) =
        parsePoints dateParse r.data) ∧
    (∀ t : Int,
      (((normalizeChartData dateParse (some r)).points.filter
          (fun q => q.base.timestampMs == t)).map (fun q => q.base)) =
        (parsePoints dateParse r.data).filter (fun q => q.timestampMs == t)) := by
  obtain ⟨hpts, -, -, -⟩ := normalize_components dateParse r
  refine ⟨?_, ?_, ?_, ?_⟩
  · rw [hpts]
    have hmap := buildSeries_fst_map_base none (sortPoints (parsePoints dateParse r.data))
    have hpair := sortPoints_pairwise (parsePoints dateParse r.data)
    rw [← hmap] at hpair
    exact (List.pairwise_map (f := fun q : NormalizedChartPoint => q.base)
      (R := fun a b : ParsedPoint => a.timestampMs ≤ b.timestampMs)).mp hpair
  · rw [hpts, buildSeries_fst_length, sortPoints_length]
  · intro hs
    have hid : sortPoints (parsePoints dateParse r.data) = parsePoints dateParse r.data := by
      unfold sortPoints
      rw [if_pos hs]
    rw [hpts, hid]
    exact buildSeries_fst_map_base none _
  · intro t
    rw [hpts]
    have hmap := buildSeries_fst_map_base none (sortPoints (parsePoints dateParse r.data))
    have h1 : (sortPoints (parsePoints dateParse r.data)).filter
        (fun q => q.timestampMs == t) =
        ((buildSeries none (sortPoints (parsePoints dateParse r.data))).1.filter
          ((fun q => q.timestampMs == t) ∘ (fun q => q.base))).map (fun q => q.base) := by
      rw [← List.filter_map, hmap]
    rw [sortPoints_filter] at h1
    simpa [Function.comp] using h1.symm

/-- Witness for C6 at a concrete unsorted input with a duplicate
timestamp: the conjunct for a fixed timestamp is applied at t = 5. -/
theorem normalize_sort_stability_witness :
    (((normalizeChartData dpDup (some respDup)).points.filter
        (fun q => q.base.timestampMs == (5 : Int))).map (fun q => q.base)) =
      (parsePoints dpDup respDup.data).filter (fun q => q.timestampMs == (5 : Int)) := by
  exact (normalize_sort_stability dpDup respDup).2.2.2 5

/-! ## C7: direction color rule -/

theorem buildSeries_color_get :
    ∀ (l : List ParsedPoint) (prev : Option ℚ) (i : Nat)
      (hi : i < (buildSeries prev l).1.length),
      ((buildSeries prev l).1.get ⟨i, hi⟩).volumeColor =
        if (if i = 0 then prev.getD (((buildSeries prev l).1.get ⟨i, hi⟩).base.open_)
            else ((buildSeries prev l).1.get
              ⟨i - 1, Nat.lt_of_le_of_lt (Nat.sub_le i 1) hi⟩).base.close) ≤
          ((buildSeries prev l).1.get ⟨i, hi⟩).base.close
        then UP_COLOR else DOWN_COLOR := by
  intro l
  induction l with
  | nil =>
    intro prev i hi
    simp [buildSeries] at hi
  | cons p rest ih =>
    intro prev i hi
    cases i with
    | zero => simp [buildSeries]
    | succ j =>
      have hj : j < (buildSeries (some p.close) rest).1.length := by
        have h0 := hi
        simp only [buildSeries, List.length_cons] at h0
        omega
      have h2 := ih (some p.close) j hj
      cases j with
      | zero => simpa [buildSeries] using h2
      | succ k => simpa [buildSeries] using h2

/-- C7.  In the normalized series, each point's direction color is
UP_COLOR exactly when its close is at least the reference close, where
the reference close is the previous point's close in final (sorted)
order, and for the first point its own open. -/
theorem direction_color_rule (dateParse : String → Option Int) (r : OHLCVResponse)
    (i : Nat) (hi : i < (normalizeChartData dateParse (some r)).points.length) :
    ((normalizeChartData dateParse (some r)).points.get ⟨i, hi⟩).volumeColor =
      if (if i = 0
          then ((normalizeChartData dateParse (some r)).points.get ⟨i, hi⟩).base.open_
          else ((normalizeChartData dateParse (some r)).points.get
            ⟨i - 1, Nat.lt_of_le_of_lt (Nat.sub_le i 1) hi⟩).base.close) ≤
        ((normalizeChartData dateParse (some r)).points.get ⟨i, hi⟩).base.close
      then UP_COLOR else DOWN_COLOR := by
  have hpts := (normalize_components dateParse r).1
  revert hi
  rw [hpts]
  intro hi
  have h := buildSeries_color_get (sortPoints (parsePoints dateParse r.data)) none i hi
  simpa using h

/-- Witness for C7: a single point with open 100 and close 95 gets
DOWN_COLOR, one with open 100 and close 105 gets UP_COLOR. -/
theorem direction_color_rule_witness :
    0 < (normalizeChartData dpOne (some respDown)).points.length ∧
    ((normalizeChartData dpOne (some respDown)).points.get ⟨0, by decide⟩).volumeColor =
      DOWN_COLOR ∧
    ((normalizeChartData dpOne (some respUp)).points.get ⟨0, by decide⟩).volumeColor =
      UP_COLOR := by
  refine ⟨by decide, ?_, ?_⟩
  · exact (direction_color_rule dpOne respDown 0 (by decide)).trans (by decide)
  · exact (direction_color_rule dpOne respUp 0 (by decide)).trans (by decide)

/-! ## C8: parse failures dropped, UTC defaulting, empty sentinel -/

/-- C8.  A time string without a timezone suffix is parsed with the UTC
designator appended (and parsed as-is otherwise); points whose time
fails to parse are dropped without error, so the output has exactly
(input length - number of unparseable points) points; and a null
response, an empty input, or an input reduced to empty by dropping all
points each yield the EMPTY_CHART_DATA sentinel. -/
theorem parse_drop_and_empty_sentinel (dateParse : String → Option Int)
    (s : String) (r : OHLCVResponse) :
    (hasTimezoneSuffix s = false → toEpochMs dateParse s = dateParse (s ++ "Z")) ∧
    (hasTimezoneSuffix s = true → toEpochMs dateParse s = dateParse s) ∧
    (normalizeChartData dateParse (some r)).points.length =
      r.data.length - r.data.countP (fun q => (toEpochMs dateParse q.time).isNone) ∧
    normalizeChartData dateParse none = EMPTY_CHART_DATA ∧
    (r.data = [] → normalizeChartData dateParse (some r) = EMPTY_CHART_DATA) ∧
    (parsePoints dateParse r.data = [] →
      normalizeChartData dateParse (some r) = EMPTY_CHART_DATA) := by
  refine ⟨?_, ?_, ?_, rfl, ?_, ?_⟩
  · intro h
    simp [toEpochMs, h]
  · intro h
    simp [toEpochMs, h]
  · rw [(normalize_components dateParse r).1, buildSeries_fst_length, sortPoints_length]
    unfold parsePoints
    rw [length_filterMap_sub]
    congr 1
    apply List.countP_congr
    intro q _
    unfold parsePoint
    cases toEpochMs dateParse q.time <;> simp
  · intro h
    simp [normalizeChartData, h]
  · intro h
    simp only [normalizeChartData]
    split
    · rfl
    · rw [show sortPoints (parsePoints dateParse r.data) = [] by rw [h]; rfl]
      simp

/-- Witness for C8 at concrete inputs: a time string without a suffix
gets the UTC designator, and a two-point input with one unparseable
point yields one output point. -/
theorem parse_drop_and_empty_sentinel_witness :
    hasTimezoneSuffix "2024-01-01T00:00:00" = false ∧
    toEpochMs dpOne "2024-01-01T00:00:00" = dpOne ("2024-01-01T00:00:00" ++ "Z") ∧
    (normalizeChartData dpOne (some respBadTime)).points.length =
      respBadTime.data.length -
        respBadTime.data.countP (fun q => (toEpochMs dpOne q.time).isNone) := by
  refine ⟨by decide, ?_, ?_⟩
  · exact (parse_drop_and_empty_sentinel dpOne "2024-01-01T00:00:00" respBadTime).1
      (by decide)
  · exact (parse_drop_and_empty_sentinel dpOne "2024-01-01T00:00:00" respBadTime).2.2.1

/-! ## C9: default visible window -/

/-- C9.  The default zoom start covers the whole series (0) when the
point count is at most VOLUME_WINDOW_SIZE (150); otherwise it is the
start percentage of the trailing 150-point window, rounded to a whole
percent (Math.round of (1 - 150/n)·100 = 100·(n-150)/n); for a 252-point
series this start is 40.  buildChartOption emits exactly this value
whenever there is data. -/
theorem default_zoom_window (n : Nat) :
    (n ≤ VOLUME_WINDOW_SIZE → computeZoomStart n = 0) ∧
    (VOLUME_WINDOW_SIZE < n →
      computeZoomStart n = jsRound (100 * (((n : ℚ) - VOLUME_WINDOW_SIZE) / n))) ∧
    computeZoomStart 252 = 40 ∧
    (∀ cd : NormalizedChartData, dataZoomStart cd = computeZoomStart cd.points.length) := by
  refine ⟨?_, ?_, ?_, ?_⟩
  · intro h
    simp [computeZoomStart, h]
  · intro h
    have hn0 : (n : ℚ) ≠ 0 := Nat.cast_ne_zero.mpr (by omega)
    unfold computeZoomStart
    rw [if_neg (by omega)]
    have harg : (1 - (VOLUME_WINDOW_SIZE : ℚ) / n) * 100 =
        100 * (((n : ℚ) - VOLUME_WINDOW_SIZE) / n) := by
      field_simp
      ring
    rw [harg]
    have hwn : (VOLUME_WINDOW_SIZE : ℚ) ≤ (n : ℚ) := by
      exact_mod_cast Nat.le_of_lt h
    have hq : 0 ≤ 100 * (((n : ℚ) - VOLUME_WINDOW_SIZE) / n) := by
      apply mul_nonneg (by norm_num)
      apply div_nonneg (by linarith)
      positivity
    have hx : 0 ≤ jsRound (100 * (((n : ℚ) - VOLUME_WINDOW_SIZE) / n)) := by
      unfold jsRound
      apply Int.floor_nonneg.mpr
      linarith
    exact max_eq_right hx
  · unfold computeZoomStart jsRound
    rw [if_neg (by norm_num [VOLUME_WINDOW_SIZE])]
    have harg : (1 - (VOLUME_WINDOW_SIZE : ℚ) / ((252 : Nat) : ℚ)) * 100 + 1 / 2 =
        20652 / 504 := by
      norm_num [VOLUME_WINDOW_SIZE]
    rw [harg]
    have hf : ⌊(20652 : ℚ) / 504⌋ = 40 := by
      rw [Int.floor_eq_iff]
      constructor <;> norm_num
    rw [hf]
    norm_num
  · intro cd
    unfold dataZoomStart
    split
    · rfl
    · next h =>
      have h0 : cd.points.length = 0 := by omega
      rw [h0]
      simp [computeZoomStart]

/-- Witness for C9 at n = 252: over the window size, the start is the
rounded trailing-window percentage. -/
theorem default_zoom_window_witness :
    VOLUME_WINDOW_SIZE < 252 ∧
    computeZoomStart 252 =
      jsRound (100 * ((((252 : Nat) : ℚ) - VOLUME_WINDOW_SIZE) / ((252 : Nat) : ℚ))) := by
  exact ⟨by decide, (default_zoom_window 252).2.1 (by decide)⟩

/-! ## C10: the four output sequences stay aligned -/

/-- C10.  The categories, candle tuples and volume data of a normalized
series are pointwise projections of its points sequence (so all four
always have the same length, which equals the number of input points
whose timestamp parses), with the i-th candle tuple holding the i-th
point's [open, close, low, high] and the i-th volume datum its volume
and direction color. -/
theorem parallel_outputs_aligned (dateParse : String → Option Int)
    (response : Option OHLCVResponse) :
    (normalizeChartData dateParse response).points.length =
      (parsePoints dateParse (responseData response)).length ∧
    (normalizeChartData dateParse response).categories =
      (normalizeChartData dateParse response).points.map (fun q => q.base.isoTime) ∧
    (normalizeChartData dateParse response).candles =
      (normalizeChartData dateParse response).points.map
        (fun q => ((q.base.open_, q.base.close, q.base.low, q.base.high) : Candle)) ∧
    (normalizeChartData dateParse response).volumes =
      (normalizeChartData dateParse response).points.map
        (fun q => (⟨q.base.volume, ⟨q.volumeColor⟩⟩ : VolumeDatum)) := by
  cases response with
  | none =>
    refine ⟨?_, ?_, ?_, ?_⟩ <;>
      simp [normalizeChartData, EMPTY_CHART_DATA, responseData, parsePoints]
  | some r =>
    obtain ⟨hp, hc, hcan, hv⟩ := normalize_components dateParse r
    refine ⟨?_, ?_, ?_, ?_⟩
    · rw [hp, buildSeries_fst_length, sortPoints_length]
      rfl
    · rw [hp, hc, buildSeries_categories]
    · rw [hp, hcan, buildSeries_candles]
    · rw [hp, hv, buildSeries_volumes]

end TradeNow
